import Mathlib

/-!
Shallow embedding of `src/assistant.py`, a personal-assistant CLI that keeps
tasks, notes, reminders and a dictionary-lookup history in four JSON files.

Python strings are modelled as Lean `String` / `List Char`; the modelled
`str` operations (`strip`, `lower`, `split(";")`, `replace`, `in`,
`startswith`, `isdigit`) follow their behaviour on ASCII text, which is the
alphabet of every command keyword and every timestamp in the program.
Python lists of JSON records are Lean lists.  File I/O is modelled by
explicit state passing: each operation takes the decoded contents of its
JSON slot and returns the contents it saves back.
-/

set_option maxRecDepth 8192

namespace Assistant

/-! ## Python string primitives used by the program -/

/-- Whitespace stripped by Python `str.strip()` (ASCII part):
space, tab, LF, CR, VT, FF. -/
def isPySpace (c : Char) : Bool :=
  c = ' ' || c = '\t' || c = '\n' || c = '\r' || c = '\x0b' || c = '\x0c'

/-- Python `str.strip()` on a character list. -/
def pyStripL (l : List Char) : List Char :=
  ((l.dropWhile isPySpace).reverse.dropWhile isPySpace).reverse

/-- Python `str.lower()` on a character list (ASCII). -/
def pyLowerL (l : List Char) : List Char :=
  l.map Char.toLower

/-- Python `str.lower()` on a `String` (ASCII). -/
def pyLower (s : String) : String :=
  (pyLowerL s.toList).asString

/-- Python `value.split(";")`: split on each single `;`, keeping empty
pieces, and returning one empty piece for the empty string. -/
def splitSemi : List Char → List (List Char)
  | [] => [[]]
  | c :: rest =>
    if c = ';' then [] :: splitSemi rest
    else
      match splitSemi rest with
      | [] => [[c]]
      | g :: gs => (c :: g) :: gs

/-- Python `s.replace(pat, "", 1)`: delete the first (leftmost) occurrence
of `pat`.  An empty `pat` leaves the string unchanged, as in Python. -/
def replaceFirstL (pat : List Char) : List Char → List Char
  | [] => []
  | c :: t =>
    if pat ≠ [] ∧ pat.isPrefixOf (c :: t) then t.drop (pat.length - 1)
    else c :: replaceFirstL pat t

/-- Python `s.replace(pat, "")`: delete every (leftmost-first,
non-overlapping) occurrence of `pat`.  An empty `pat` leaves the string
unchanged; the program only calls `replace` with non-empty patterns. -/
def replaceAllL (pat : List Char) (l : List Char) : List Char :=
  match l with
  | [] => []
  | c :: t =>
    if pat ≠ [] ∧ pat.isPrefixOf (c :: t) then
      replaceAllL pat (t.drop (pat.length - 1))
    else
      c :: replaceAllL pat t
termination_by l.length
decreasing_by
  all_goals simp [List.length_drop]
  omega

/-- Python substring containment `pat in l` (contiguous substring). -/
def containsL (pat : List Char) : List Char → Bool
  | [] => pat.isEmpty
  | c :: t => pat.isPrefixOf (c :: t) || containsL pat t

/-- Python `sub in s` on `String`s. -/
def containsSub (s sub : String) : Bool :=
  containsL sub.toList s.toList

/-- Python `s.startswith(pre)`. -/
def pyStartsWith (s pre : String) : Bool :=
  pre.toList.isPrefixOf s.toList

/-- ASCII decimal digit test (the ASCII case of Python `str.isdigit`). -/
def isAsciiDigit (c : Char) : Bool :=
  decide (48 ≤ c.toNat ∧ c.toNat ≤ 57)

/-- Numeric value of an ASCII digit character. -/
def digitVal (c : Char) : Nat :=
  c.toNat - 48

/-- Python `int(...)` applied to a non-empty string of decimal digits. -/
def natOfDigits (l : List Char) : Nat :=
  l.foldl (fun a c => a * 10 + digitVal c) 0

/-! ## Durable store: `ensure_file` / `load_json`

The JSON text in a slot is modelled at the parse-outcome level: a slot is
absent, blank (whitespace-only), malformed (non-blank text that
`json.loads` rejects), or holds some well-formed JSON value. -/

/-- A JSON value as produced by `json.loads`. -/
inductive JsonVal
  | null
  | bool (b : Bool)
  | num (n : Int)
  | str (s : String)
  | arr (elems : List JsonVal)
  | obj (fields : List (String × JsonVal))

/-- Test for a JSON array (the "ordered sequence" shape). -/
def JsonVal.isArr : JsonVal → Bool
  | .arr _ => true
  | _ => false

/-- State of one storage slot's file, at the parse-outcome level. -/
inductive FileState
  | absent
  | blank
  | malformed
  | valid (v : JsonVal)

/-- Embeds `ensure_file` (assistant.py lines 36-53): a missing file, a
blank file, or a file whose text `json.loads` rejects is rewritten to
`[]`; any file holding well-formed JSON — of any shape — is left as is. -/
def ensure_file : FileState → FileState
  | .absent => .valid (.arr [])
  | .blank => .valid (.arr [])
  | .malformed => .valid (.arr [])
  | .valid v => .valid v

/-- Embeds `load_json` (assistant.py lines 61-66): return the parsed JSON
value, or `[]` if opening or parsing raises. -/
def load_json : FileState → JsonVal
  | .valid v => v
  | _ => .arr []

/-! ## Tasks (assistant.py lines 72-152) -/

/-- One task record, with the exact fields `add_task` writes. -/
structure Task where
  id : Nat
  task : String
  status : String
  priority : String
  due : Option String
deriving DecidableEq, Repr

/-- Embeds `get_new_id` (lines 79-80): `max(ids, default=0) + 1`. -/
def get_new_id (tasks : List Task) : Nat :=
  (tasks.map Task.id).foldr Nat.max 0 + 1

/-- Embeds `add_task` (lines 82-104): split the payload on `;`; field 0 is
the description, field 1 (if present and non-blank after strip) the due
date, field 2 (if present and non-blank) the priority, lowercased;
append the new record and save. -/
def add_task (value : String) (tasks : List Task) : List Task :=
  let parts := splitSemi value.toList
  let task_name := (pyStripL (parts.headD [])).asString
  let due_date : Option String :=
    if 1 < parts.length ∧ pyStripL (parts.getD 1 []) ≠ [] then
      some (pyStripL (parts.getD 1 [])).asString
    else none
  let priority : String :=
    if 2 < parts.length ∧ pyStripL (parts.getD 2 []) ≠ [] then
      (pyLowerL (pyStripL (parts.getD 2 []))).asString
    else "medium"
  tasks ++ [{ id := get_new_id tasks, task := task_name, status := "pending",
              priority := priority, due := due_date }]

/-- Embeds `complete_task` (lines 135-143): walk the list, set the first
task with a matching id to status `"done"` and save (`true`); if none
matches, change nothing and report an invalid id (`false`). -/
def complete_task (task_id : Nat) : List Task → List Task × Bool
  | [] => ([], false)
  | t :: ts =>
    if t.id = task_id then ({ t with status := "done" } :: ts, true)
    else ((t :: (complete_task task_id ts).1), (complete_task task_id ts).2)

/-- Embeds `remove_task` (lines 145-152): filter out tasks with the id;
save only when the length changed, otherwise report an invalid id. -/
def remove_task (task_id : Nat) (tasks : List Task) : List Task × Bool :=
  let new_tasks := tasks.filter fun t => decide (t.id ≠ task_id)
  if new_tasks.length ≠ tasks.length then (new_tasks, true) else (tasks, false)

/-- Helper for stating what `complete_task` does on a hit: set the status
of the record at one position to `"done"`, touching nothing else. -/
def setStatusDoneAt : Nat → List Task → List Task
  | _, [] => []
  | 0, t :: ts => { t with status := "done" } :: ts
  | k + 1, t :: ts => t :: setStatusDoneAt k ts

/-! ## Reminders (assistant.py lines 193-232)

`add_reminder` parses `date + " " + time` with
`datetime.strptime(..., "%Y-%m-%d %H:%M")`.  CPython's `_strptime`
compiles that format to the regex
`(\d\d\d\d)-(1[0-2]|0[1-9]|[1-9])-(3[01]|[12]\d|0[1-9]|[1-9])\s+(2[0-3]|[0-1]\d|\d):([0-5]\d|\d)`,
requires it to consume the whole input, and then validates the calendar
day (and `year ≥ 1`) via the `datetime` constructor.  The parsers below
implement exactly those alternations, tried in regex order; for this
format a longer alternative can never block a parse that a shorter one
would rescue (after a month/day/hour token the next character is a
non-digit literal or end), so the ordered first-match strategy coincides
with full regex backtracking.  `strftime("%Y-%m-%d %H:%M")` is modelled
as the zero-padded rendering (4-digit year, 2-digit fields). -/

/-- A timestamp with minute precision, the value `strptime` produces. -/
structure DT where
  year : Nat
  month : Nat
  day : Nat
  hour : Nat
  minute : Nat
deriving DecidableEq, Repr

/-- Leap-year rule used by `datetime` / `calendar.isleap`. -/
def isLeapYear (y : Nat) : Bool :=
  (y % 4 = 0 && y % 100 ≠ 0) || y % 400 = 0

/-- Days in a month, as validated by the `datetime` constructor. -/
def daysInMonth (y m : Nat) : Nat :=
  if m = 2 then (if isLeapYear y then 29 else 28)
  else if m = 4 ∨ m = 6 ∨ m = 9 ∨ m = 11 then 30
  else 31

/-- Regex `\d\d\d\d` (the `%Y` directive): exactly four digits. -/
def parse4Digits : List Char → Option (Nat × List Char)
  | a :: b :: c :: d :: rest =>
    if (48 ≤ a.toNat ∧ a.toNat ≤ 57) ∧ (48 ≤ b.toNat ∧ b.toNat ≤ 57) ∧
       (48 ≤ c.toNat ∧ c.toNat ≤ 57) ∧ (48 ≤ d.toNat ∧ d.toNat ≤ 57) then
      some (((digitVal a * 10 + digitVal b) * 10 + digitVal c) * 10 + digitVal d, rest)
    else none
  | _ => none

/-- Regex `1[0-2]|0[1-9]|[1-9]` (the `%m` directive). -/
def parseMonth2 : List Char → Option (Nat × List Char)
  | [] => none
  | [a] => if 49 ≤ a.toNat ∧ a.toNat ≤ 57 then some (digitVal a, []) else none
  | a :: b :: rest =>
    if a.toNat = 49 ∧ 48 ≤ b.toNat ∧ b.toNat ≤ 50 then some (10 + digitVal b, rest)
    else if a.toNat = 48 ∧ 49 ≤ b.toNat ∧ b.toNat ≤ 57 then some (digitVal b, rest)
    else if 49 ≤ a.toNat ∧ a.toNat ≤ 57 then some (digitVal a, b :: rest)
    else none

/-- Regex `3[01]|[12]\d|0[1-9]|[1-9]` (the `%d` directive). -/
def parseDay2 : List Char → Option (Nat × List Char)
  | [] => none
  | [a] => if 49 ≤ a.toNat ∧ a.toNat ≤ 57 then some (digitVal a, []) else none
  | a :: b :: rest =>
    if a.toNat = 51 ∧ 48 ≤ b.toNat ∧ b.toNat ≤ 49 then some (30 + digitVal b, rest)
    else if (49 ≤ a.toNat ∧ a.toNat ≤ 50) ∧ (48 ≤ b.toNat ∧ b.toNat ≤ 57) then
      some (digitVal a * 10 + digitVal b, rest)
    else if a.toNat = 48 ∧ 49 ≤ b.toNat ∧ b.toNat ≤ 57 then some (digitVal b, rest)
    else if 49 ≤ a.toNat ∧ a.toNat ≤ 57 then some (digitVal a, b :: rest)
    else none

/-- Regex `2[0-3]|[0-1]\d|\d` (the `%H` directive). -/
def parseHour2 : List Char → Option (Nat × List Char)
  | [] => none
  | [a] => if 48 ≤ a.toNat ∧ a.toNat ≤ 57 then some (digitVal a, []) else none
  | a :: b :: rest =>
    if a.toNat = 50 ∧ 48 ≤ b.toNat ∧ b.toNat ≤ 51 then some (20 + digitVal b, rest)
    else if (48 ≤ a.toNat ∧ a.toNat ≤ 49) ∧ (48 ≤ b.toNat ∧ b.toNat ≤ 57) then
      some (digitVal a * 10 + digitVal b, rest)
    else if 48 ≤ a.toNat ∧ a.toNat ≤ 57 then some (digitVal a, b :: rest)
    else none

/-- Regex `[0-5]\d|\d` (the `%M` directive). -/
def parseMinute2 : List Char → Option (Nat × List Char)
  | [] => none
  | [a] => if 48 ≤ a.toNat ∧ a.toNat ≤ 57 then some (digitVal a, []) else none
  | a :: b :: rest =>
    if (48 ≤ a.toNat ∧ a.toNat ≤ 53) ∧ (48 ≤ b.toNat ∧ b.toNat ≤ 57) then
      some (digitVal a * 10 + digitVal b, rest)
    else if 48 ≤ a.toNat ∧ a.toNat ≤ 57 then some (digitVal a, b :: rest)
    else none

/-- One literal character of the format string. -/
def parseLit (c : Char) : List Char → Option (List Char)
  | [] => none
  | a :: rest => if a = c then some rest else none

/-- Regex `\s+`, which `_strptime` substitutes for the literal space of
the format: one or more whitespace characters, taken greedily (the
following token is a digit, so greediness is exact). -/
def parseSpaces1 : List Char → Option (List Char)
  | [] => none
  | c :: rest => if isPySpace c then some (rest.dropWhile isPySpace) else none

/-- Embeds `datetime.strptime(s, "%Y-%m-%d %H:%M")`: `some` of the parsed
timestamp, or `none` where Python raises `ValueError` — on a regex
mismatch, on leftover input, or on an impossible calendar date. -/
def strptimeMinute (s : String) : Option DT :=
  (parse4Digits s.toList).bind fun yr =>
  (parseLit '-' yr.2).bind fun r2 =>
  (parseMonth2 r2).bind fun mr =>
  (parseLit '-' mr.2).bind fun r4 =>
  (parseDay2 r4).bind fun dr =>
  (parseSpaces1 dr.2).bind fun r6 =>
  (parseHour2 r6).bind fun hr =>
  (parseLit ':' hr.2).bind fun r8 =>
  (parseMinute2 r8).bind fun mir =>
  if mir.2 = [] ∧ 1 ≤ yr.1 ∧ dr.1 ≤ daysInMonth yr.1 mr.1 then
    some ⟨yr.1, mr.1, dr.1, hr.1, mir.1⟩
  else none

/-- Digit character for a value `0..9`. -/
def digitChar (n : Nat) : Char :=
  Char.ofNat (48 + n)

/-- Two-digit zero-padded rendering (`%m`, `%d`, `%H`, `%M`). -/
def render2 (n : Nat) : List Char :=
  [digitChar (n / 10), digitChar (n % 10)]

/-- Four-digit zero-padded rendering (`%Y`). -/
def render4 (n : Nat) : List Char :=
  [digitChar (n / 1000), digitChar (n / 100 % 10), digitChar (n / 10 % 10), digitChar (n % 10)]

/-- Embeds `dt.strftime("%Y-%m-%d %H:%M")`. -/
def strftimeMinute (dt : DT) : String :=
  (render4 dt.year ++ '-' :: (render2 dt.month ++ '-' :: (render2 dt.day ++
    ' ' :: (render2 dt.hour ++ ':' :: render2 dt.minute)))).asString

/-- Range of timestamps `strptime` can produce: what the regex admits
plus the `datetime` constructor's calendar checks. -/
def ValidDT (dt : DT) : Prop :=
  1 ≤ dt.year ∧ dt.year ≤ 9999 ∧ 1 ≤ dt.month ∧ dt.month ≤ 12 ∧
  1 ≤ dt.day ∧ dt.day ≤ daysInMonth dt.year dt.month ∧
  dt.hour ≤ 23 ∧ dt.minute ≤ 59

/-- One reminder record, with the exact fields `add_reminder` writes. -/
structure Reminder where
  text : String
  time : String
deriving DecidableEq, Repr

/-- Embeds `add_reminder` (lines 200-209): parse `date + " " + time`; on
failure speak an invalid-format message and change nothing (`false`); on
success append one record whose `time` is the re-rendered timestamp and
save (`true`). -/
def add_reminder (text date_str time_str : String) (reminders : List Reminder) :
    List Reminder × Bool :=
  match strptimeMinute (date_str ++ " " ++ time_str) with
  | none => (reminders, false)
  | some dt => (reminders ++ [⟨text, strftimeMinute dt⟩], true)

/-- Embeds `check_reminders` (lines 224-232): `now` is the current time
truncated to the minute (the code renders `datetime.now()` with
`"%Y-%m-%d %H:%M"`); keep exactly the reminders whose stored `time`
string equals that rendering. -/
def check_reminders (now : DT) (reminders : List Reminder) : List Reminder :=
  reminders.filter fun r => decide (r.time = strftimeMinute now)

/-! ## Notes (assistant.py lines 154-191) -/

/-- Embeds `add_note` (lines 161-165): append and save. -/
def add_note (note : String) (notes : List String) : List String :=
  notes ++ [note]

/-- Embeds `search_notes` (lines 180-191): case-insensitive substring
match of the keyword against each note. -/
def search_notes (keyword : String) (notes : List String) : List String :=
  notes.filter fun n => containsSub (pyLower n) (pyLower keyword)

/-! ## History records and the persistent state of the whole program -/

/-- One dictionary-history record, as written by `save_word_to_history`. -/
structure HistEntry where
  word : String
  date : String
deriving DecidableEq, Repr

/-- Decoded contents of the four storage slots. -/
structure Store where
  tasks : List Task
  notes : List String
  reminders : List Reminder
  history : List HistEntry
deriving DecidableEq, Repr

/-! ## Command interpretation (assistant.py lines 340-448)

`main()` is the program's only entry point (`if __name__ == "__main__":
main()`).  It reads one line at a time from the console, lowercases and
strips it, and dispatches through a single if/elif chain; no code path
inspects the process arguments (`argparse` is imported and never used).
`route` embeds that chain on the already-normalized line: each branch
condition below is the exact Python condition, in source order, and the
payload extraction inside each branch mirrors the Python slicing.  The
free-text id extraction `int(''.join(filter(str.isdigit, user_input)))`
is modelled on ASCII digits (`int` then fails exactly on the empty
digit string, which the code turns into a usage message). -/

/-- The action a dispatched input line results in. -/
inductive Action
  | bye
  | greet
  | addTask (payload : String)
  | addTaskUsage
  | showTasks
  | completeTask (id : Nat)
  | completeUsage
  | removeTask (id : Nat)
  | removeUsage
  | addNote (text : String)
  | addNoteUsage
  | showNotes
  | searchNote (keyword : String)
  | searchUsage
  | addReminder (text date time : String)
  | addReminderUsage
  | showReminders
  | checkReminders
  | weather (city : String)
  | weatherUsage
  | defineWord (w : String)
  | defineUsage
  | vocabHistory
  | news
  | fact
  | unknown
deriving DecidableEq, Repr

/-- Branch guard of line 345: any exit keyword contained in the line. -/
def byeCond (u : String) : Bool :=
  ["bye", "exit", "quit", "goodbye"].any fun w => containsSub u w

/-- Branch guard of line 350: any greeting keyword contained in the line. -/
def greetCond (u : String) : Bool :=
  ["hi", "hello", "hey", "greet"].any fun w => containsSub u w

/-- Branch guard of line 354. -/
def addTaskCond (u : String) : Bool :=
  pyStartsWith u "add task"

/-- Branch guard of line 366. -/
def showTasksCond (u : String) : Bool :=
  ["show tasks", "list tasks", "my tasks", "what are my tasks"].any fun w => containsSub u w

/-- Branch guard of line 369. -/
def completeCond (u : String) : Bool :=
  pyStartsWith u "complete task" || pyStartsWith u "done"

/-- Branch guard of line 376. -/
def removeCond (u : String) : Bool :=
  pyStartsWith u "remove task" || pyStartsWith u "delete task"

/-- Branch guard of line 384. -/
def addNoteCond (u : String) : Bool :=
  pyStartsWith u "add note"

/-- Branch guard of line 390. -/
def showNotesCond (u : String) : Bool :=
  ["show notes", "list notes", "my notes"].any fun w => containsSub u w

/-- Branch guard of line 392. -/
def searchNoteCond (u : String) : Bool :=
  pyStartsWith u "search note"

/-- Branch guard of line 400. -/
def addReminderCond (u : String) : Bool :=
  pyStartsWith u "add reminder"

/-- Branch guard of line 406. -/
def showRemindersCond (u : String) : Bool :=
  ["show reminders", "list reminders"].any fun w => containsSub u w

/-- Branch guard of line 408. -/
def checkRemindersCond (u : String) : Bool :=
  ["check reminders", "reminders now"].any fun w => containsSub u w

/-- Branch guard of line 412. -/
def weatherCond (u : String) : Bool :=
  ["weather", "forecast"].any fun w => containsSub u w

/-- Branch guard of line 420. -/
def defineCond (u : String) : Bool :=
  pyStartsWith u "define"

/-- Branch guard of line 426. -/
def vocabCond (u : String) : Bool :=
  ["show history", "my vocabulary", "vocab"].any fun w => containsSub u w

/-- Branch guard of line 437. -/
def newsCond (u : String) : Bool :=
  ["news", "headlines", "what\x27s new"].any fun w => containsSub u w

/-- Branch guard of line 441. -/
def factCond (u : String) : Bool :=
  ["fact", "tell me a fact", "fun fact"].any fun w => containsSub u w

/-- Embeds the dispatch chain of `main` on one normalized input line. -/
def route (u : String) : Action :=
  if byeCond u then .bye
  else if greetCond u then .greet
  else if addTaskCond u then
    let parts := splitSemi u.toList
    let task_info := pyStripL (replaceFirstL ("add task".toList) (parts.headD []))
    let payload := task_info ++
      (if 1 < parts.length then ';' :: List.intercalate [';'] parts.tail else [])
    if payload = [] then .addTaskUsage else .addTask payload.asString
  else if showTasksCond u then .showTasks
  else if completeCond u then
    let ds := u.toList.filter isAsciiDigit
    if ds = [] then .completeUsage else .completeTask (natOfDigits ds)
  else if removeCond u then
    let ds := u.toList.filter isAsciiDigit
    if ds = [] then .removeUsage else .removeTask (natOfDigits ds)
  else if addNoteCond u then
    let note := pyStripL (replaceFirstL ("add note".toList) u.toList)
    if note = [] then .addNoteUsage else .addNote note.asString
  else if showNotesCond u then .showNotes
  else if searchNoteCond u then
    let kw := pyStripL (replaceFirstL ("search note".toList) u.toList)
    if kw = [] then .searchUsage else .searchNote kw.asString
  else if addReminderCond u then
    let parts := splitSemi u.toList
    if parts.length = 3 then
      .addReminder (pyStripL (replaceFirstL ("add reminder".toList) (parts.getD 0 []))).asString
        (pyStripL (parts.getD 1 [])).asString (pyStripL (parts.getD 2 [])).asString
    else .addReminderUsage
  else if showRemindersCond u then .showReminders
  else if checkRemindersCond u then .checkReminders
  else if weatherCond u then
    let city := pyStripL (replaceAllL ("weather".toList)
      (replaceAllL ("weather in".toList)
        (replaceAllL ("what\x27s the weather in".toList) u.toList)))
    if city = [] then .weatherUsage else .weather city.asString
  else if defineCond u then
    let w := pyStripL (replaceFirstL ("define".toList) u.toList)
    if w = [] then .defineUsage else .defineWord w.asString
  else if vocabCond u then .vocabHistory
  else if newsCond u then .news
  else if factCond u then .fact
  else .unknown

/-- Effect of one dispatched action on the persisted slots.  Display-only
actions leave the store unchanged; `weather` / `defineWord` / `news` talk
to external web services (out of the record-management core; the
history append inside a successful `define_word` depends on the network
response and is not modelled). -/
def exec (a : Action) (s : Store) : Store :=
  match a with
  | .addTask payload => { s with tasks := add_task payload s.tasks }
  | .completeTask i => { s with tasks := (complete_task i s.tasks).1 }
  | .removeTask i => { s with tasks := (remove_task i s.tasks).1 }
  | .addNote n => { s with notes := add_note n s.notes }
  | .addReminder t d tm => { s with reminders := (add_reminder t d tm s.reminders).1 }
  | _ => s

/-! ## Helper lemmas -/

/-- Every member of a list of naturals is bounded by its `foldr max 0`. -/
theorem le_foldr_max (x : Nat) (l : List Nat) (hx : x ∈ l) :
    x ≤ l.foldr Nat.max 0 := by
  induction l with
  | nil => cases hx
  | cons a t ih =>
    rcases List.mem_cons.mp hx with rfl | h
    · exact Nat.le_max_left _ _
    · exact Nat.le_trans (ih h) (Nat.le_max_right _ _)

/-- The id list of `add_task`'s result: the old ids plus the fresh id. -/
theorem add_task_map_id (value : String) (tasks : List Task) :
    (add_task value tasks).map Task.id = tasks.map Task.id ++ [get_new_id tasks] := by
  simp [add_task]

/-- The fresh id is strictly above every id already present. -/
theorem id_lt_get_new_id (tasks : List Task) (t : Task) (ht : t ∈ tasks) :
    t.id < get_new_id tasks := by
  have h := le_foldr_max t.id (tasks.map Task.id) (List.mem_map_of_mem Task.id ht)
  unfold get_new_id
  omega

/-- A month has at most 31 days. -/
theorem daysInMonth_le (y m : Nat) : daysInMonth y m ≤ 31 := by
  unfold daysInMonth
  split
  · split <;> omega
  · split <;> omega

/-- Code point of a rendered digit. -/
theorem toNat_digitChar (k : Nat) (hk : k ≤ 9) : (digitChar k).toNat = 48 + k := by
  interval_cases k <;> rfl

/-- A rendered digit is not whitespace. -/
theorem isPySpace_digitChar (k : Nat) (hk : k ≤ 9) : isPySpace (digitChar k) = false := by
  interval_cases k <;> rfl

/-- `toList` undoes `asString`. -/
theorem toListAsString (l : List Char) : (List.asString l).toList = l := rfl

/-- Parsing the `%Y` directive back from its zero-padded rendering. -/
theorem parse4Digits_render4 (y : Nat) (hy : y ≤ 9999) (rest : List Char) :
    parse4Digits (render4 y ++ rest) = some (y, rest) := by
  have e0 := toNat_digitChar (y / 1000) (by omega)
  have e1 := toNat_digitChar (y / 100 % 10) (by omega)
  have e2 := toNat_digitChar (y / 10 % 10) (by omega)
  have e3 := toNat_digitChar (y % 10) (by omega)
  simp only [render4, List.cons_append, List.nil_append, parse4Digits, digitVal, e0, e1, e2, e3]
  rw [if_pos]
  · simp only [Option.some.injEq, Prod.mk.injEq]
    exact ⟨by omega, trivial⟩
  · omega

/-- Parsing the `%m` directive back from its zero-padded rendering. -/
theorem parseMonth2_render2 (m : Nat) (h1 : 1 ≤ m) (h2 : m ≤ 12) :
    ∀ rest : List Char, parseMonth2 (render2 m ++ rest) = some (m, rest) := by
  intro rest
  interval_cases m <;> rfl

/-- Parsing the `%d` directive back from its zero-padded rendering. -/
theorem parseDay2_render2 (d : Nat) (h1 : 1 ≤ d) (h2 : d ≤ 31) :
    ∀ rest : List Char, parseDay2 (render2 d ++ rest) = some (d, rest) := by
  intro rest
  interval_cases d <;> rfl

/-- Parsing the `%H` directive back from its zero-padded rendering. -/
theorem parseHour2_render2 (h : Nat) (h2 : h ≤ 23) :
    ∀ rest : List Char, parseHour2 (render2 h ++ rest) = some (h, rest) := by
  intro rest
  interval_cases h <;> rfl

/-- Parsing the `%M` directive back from its zero-padded rendering. -/
theorem parseMinute2_render2 (mi : Nat) (h2 : mi ≤ 59) :
    ∀ rest : List Char, parseMinute2 (render2 mi ++ rest) = some (mi, rest) := by
  intro rest
  interval_cases mi <;> rfl

/-- The single rendered space parses as `\s+` and consumes nothing of the
two-digit field that follows it. -/
theorem parseSpaces1_render2 (n : Nat) (hn : n ≤ 99) :
    ∀ rest : List Char, parseSpaces1 (' ' :: (render2 n ++ rest)) = some (render2 n ++ rest) := by
  intro rest
  have h : isPySpace (digitChar (n / 10)) = false := isPySpace_digitChar _ (by omega)
  have hsp : isPySpace ' ' = true := rfl
  simp [parseSpaces1, render2, List.cons_append, List.dropWhile_cons, h, hsp]

/-- A literal of the format string consumes exactly its own character. -/
theorem parseLit_same (c : Char) (r : List Char) : parseLit c (c :: r) = some r := by
  simp [parseLit]

/-- The `%Y` regex only produces years up to 9999. -/
theorem parse4Digits_bound {l r : List Char} {y : Nat}
    (h : parse4Digits l = some (y, r)) : y ≤ 9999 := by
  match l with
  | [] => simp [parse4Digits] at h
  | [a] => simp [parse4Digits] at h
  | [a, b] => simp [parse4Digits] at h
  | [a, b, c] => simp [parse4Digits] at h
  | a :: b :: c :: d :: rest =>
    simp only [parse4Digits] at h
    split at h
    · next hc =>
      simp only [Option.some.injEq, Prod.mk.injEq] at h
      obtain ⟨h1, -⟩ := h
      simp only [digitVal] at h1
      omega
    · simp at h

/-- The `%m` regex only produces months 1 to 12. -/
theorem parseMonth2_bound {l r : List Char} {m : Nat}
    (h : parseMonth2 l = some (m, r)) : 1 ≤ m ∧ m ≤ 12 := by
  match l with
  | [] => simp [parseMonth2] at h
  | [a] =>
    simp only [parseMonth2] at h
    split at h
    · next hc =>
      simp only [Option.some.injEq, Prod.mk.injEq] at h
      obtain ⟨h1, -⟩ := h
      simp only [digitVal] at h1
      omega
    · simp at h
  | a :: b :: rest =>
    simp only [parseMonth2] at h
    split at h
    · next hc =>
      simp only [Option.some.injEq, Prod.mk.injEq] at h
      obtain ⟨h1, -⟩ := h
      simp only [digitVal] at h1
      omega
    · split at h
      · next hc =>
        simp only [Option.some.injEq, Prod.mk.injEq] at h
        obtain ⟨h1, -⟩ := h
        simp only [digitVal] at h1
        omega
      · split at h
        · next hc =>
          simp only [Option.some.injEq, Prod.mk.injEq] at h
          obtain ⟨h1, -⟩ := h
          simp only [digitVal] at h1
          omega
        · simp at h

/-- The `%d` regex only produces days 1 to 31. -/
theorem parseDay2_bound {l r : List Char} {d : Nat}
    (h : parseDay2 l = some (d, r)) : 1 ≤ d ∧ d ≤ 31 := by
  match l with
  | [] => simp [parseDay2] at h
  | [a] =>
    simp only [parseDay2] at h
    split at h
    · next hc =>
      simp only [Option.some.injEq, Prod.mk.injEq] at h
      obtain ⟨h1, -⟩ := h
      simp only [digitVal] at h1
      omega
    · simp at h
  | a :: b :: rest =>
    simp only [parseDay2] at h
    split at h
    · next hc =>
      simp only [Option.some.injEq, Prod.mk.injEq] at h
      obtain ⟨h1, -⟩ := h
      simp only [digitVal] at h1
      omega
    · split at h
      · next hc =>
        simp only [Option.some.injEq, Prod.mk.injEq] at h
        obtain ⟨h1, -⟩ := h
        simp only [digitVal] at h1
        omega
      · split at h
        · next hc =>
          simp only [Option.some.injEq, Prod.mk.injEq] at h
          obtain ⟨h1, -⟩ := h
          simp only [digitVal] at h1
          omega
        · split at h
          · next hc =>
            simp only [Option.some.injEq, Prod.mk.injEq] at h
            obtain ⟨h1, -⟩ := h
            simp only [digitVal] at h1
            omega
          · simp at h

/-- The `%H` regex only produces hours 0 to 23. -/
theorem parseHour2_bound {l r : List Char} {hr : Nat}
    (h : parseHour2 l = some (hr, r)) : hr ≤ 23 := by
  match l with
  | [] => simp [parseHour2] at h
  | [a] =>
    simp only [parseHour2] at h
    split at h
    · next hc =>
      simp only [Option.some.injEq, Prod.mk.injEq] at h
      obtain ⟨h1, -⟩ := h
      simp only [digitVal] at h1
      omega
    · simp at h
  | a :: b :: rest =>
    simp only [parseHour2] at h
    split at h
    · next hc =>
      simp only [Option.some.injEq, Prod.mk.injEq] at h
      obtain ⟨h1, -⟩ := h
      simp only [digitVal] at h1
      omega
    · split at h
      · next hc =>
        simp only [Option.some.injEq, Prod.mk.injEq] at h
        obtain ⟨h1, -⟩ := h
        simp only [digitVal] at h1
        omega
      · split at h
        · next hc =>
          simp only [Option.some.injEq, Prod.mk.injEq] at h
          obtain ⟨h1, -⟩ := h
          simp only [digitVal] at h1
          omega
        · simp at h

/-- The `%M` regex only produces minutes 0 to 59. -/
theorem parseMinute2_bound {l r : List Char} {mi : Nat}
    (h : parseMinute2 l = some (mi, r)) : mi ≤ 59 := by
  match l with
  | [] => simp [parseMinute2] at h
  | [a] =>
    simp only [parseMinute2] at h
    split at h
    · next hc =>
      simp only [Option.some.injEq, Prod.mk.injEq] at h
      obtain ⟨h1, -⟩ := h
      simp only [digitVal] at h1
      omega
    · simp at h
  | a :: b :: rest =>
    simp only [parseMinute2] at h
    split at h
    · next hc =>
      simp only [Option.some.injEq, Prod.mk.injEq] at h
      obtain ⟨h1, -⟩ := h
      simp only [digitVal] at h1
      omega
    · split at h
      · next hc =>
        simp only [Option.some.injEq, Prod.mk.injEq] at h
        obtain ⟨h1, -⟩ := h
        simp only [digitVal] at h1
        omega
      · simp at h

/-- Every timestamp `strptime` accepts satisfies the `ValidDT` bounds. -/
theorem strptimeMinute_valid {s : String} {dt : DT}
    (h : strptimeMinute s = some dt) : ValidDT dt := by
  unfold strptimeMinute at h
  cases h1 : parse4Digits s.toList with
  | none => rw [h1] at h; simp at h
  | some yr =>
  obtain ⟨y, r1⟩ := yr
  rw [h1] at h
  simp only [Option.some_bind] at h
  cases h2 : parseLit '-' r1 with
  | none => rw [h2] at h; simp at h
  | some r2 =>
  rw [h2] at h
  simp only [Option.some_bind] at h
  cases h3 : parseMonth2 r2 with
  | none => rw [h3] at h; simp at h
  | some mr =>
  obtain ⟨m, r3⟩ := mr
  rw [h3] at h
  simp only [Option.some_bind] at h
  cases h4 : parseLit '-' r3 with
  | none => rw [h4] at h; simp at h
  | some r4 =>
  rw [h4] at h
  simp only [Option.some_bind] at h
  cases h5 : parseDay2 r4 with
  | none => rw [h5] at h; simp at h
  | some dr =>
  obtain ⟨d, r5⟩ := dr
  rw [h5] at h
  simp only [Option.some_bind] at h
  cases h6 : parseSpaces1 r5 with
  | none => rw [h6] at h; simp at h
  | some r6 =>
  rw [h6] at h
  simp only [Option.some_bind] at h
  cases h7 : parseHour2 r6 with
  | none => rw [h7] at h; simp at h
  | some hhr =>
  obtain ⟨hh, r7⟩ := hhr
  rw [h7] at h
  simp only [Option.some_bind] at h
  cases h8 : parseLit ':' r7 with
  | none => rw [h8] at h; simp at h
  | some r8 =>
  rw [h8] at h
  simp only [Option.some_bind] at h
  cases h9 : parseMinute2 r8 with
  | none => rw [h9] at h; simp at h
  | some mir =>
  obtain ⟨mi, r9⟩ := mir
  rw [h9] at h
  simp only [Option.some_bind] at h
  split at h
  · next hc =>
    obtain ⟨-, hy1, hdm⟩ := hc
    have hy9 := parse4Digits_bound h1
    have hm := parseMonth2_bound h3
    have hd := parseDay2_bound h5
    have hhb := parseHour2_bound h7
    have hmib := parseMinute2_bound h9
    obtain ⟨rfl⟩ := Option.some.inj h
    exact ⟨hy1, hy9, hm.1, hm.2, hd.1, hdm, hhb, hmib⟩
  · simp at h

/-- Re-parsing a canonically rendered valid timestamp gives it back. -/
theorem strptime_strftime (dt : DT) (h : ValidDT dt) :
    strptimeMinute (strftimeMinute dt) = some dt := by
  obtain ⟨y, m, d, hh, mi⟩ := dt
  simp only [ValidDT] at h
  obtain ⟨hy1, hy9, hm1, hm2, hd1, hd2, hh2, hmi2⟩ := h
  have hd31 : d ≤ 31 := Nat.le_trans hd2 (daysInMonth_le y m)
  have hrm := parseMonth2_render2 m hm1 hm2
  have hrd := parseDay2_render2 d hd1 hd31
  have hrh := parseHour2_render2 hh hh2
  have hrmi := parseMinute2_render2 mi hmi2 []
  rw [List.append_nil] at hrmi
  have hsp := parseSpaces1_render2 hh (by omega)
  show strptimeMinute (List.asString (render4 y ++ '-' :: (render2 m ++ '-' :: (render2 d ++
    ' ' :: (render2 hh ++ ':' :: render2 mi))))) = some ⟨y, m, d, hh, mi⟩
  unfold strptimeMinute
  rw [toListAsString]
  simp [parse4Digits_render4 y hy9, parseLit_same, hrm, hrd, hrh, hrmi, hsp,
    Option.some_bind, hy1, hd2]

/-- Canonical rendering is injective on valid timestamps. -/
theorem strftime_inj {dt1 dt2 : DT} (h1 : ValidDT dt1) (h2 : ValidDT dt2)
    (he : strftimeMinute dt1 = strftimeMinute dt2) : dt1 = dt2 := by
  have r1 := strptime_strftime dt1 h1
  have r2 := strptime_strftime dt2 h2
  rw [he, r2] at r1
  exact (Option.some.inj r1).symm

/-! ## Claims -/

/-- C1 counterexample: the claim says an id once deleted is never assigned
again, but after `add`, `add`, `remove 2` the collection's maximal id is
back to 1, so the next `add` reassigns the deleted id 2 — the assigned id
sequence 1, 2, 2 is neither fresh-forever nor strictly increasing. -/
theorem C1_counterexample :
    (add_task "b" (add_task "a" [])).map Task.id = [1, 2] ∧
    ((remove_task 2 (add_task "b" (add_task "a" []))).1).map Task.id = [1] ∧
    (add_task "c" (remove_task 2 (add_task "b" (add_task "a" []))).1).map Task.id = [1, 2] := by
  refine ⟨by decide, by decide, by decide⟩

/-- C1 amended: ids are unique within the collection at all times and each
`add` assigns `1 + max existing id`, which is strictly greater than every
id currently present — so ids assigned by `add` calls with no intervening
`remove` are strictly increasing and unique; but since the fresh id only
exceeds the ids still present, removing the maximal task lets a later
`add` reuse its id. -/
theorem C1_ids_fresh (tasks : List Task) (v : String)
    (h : (tasks.map Task.id).Nodup) :
    (∀ t ∈ tasks, t.id < get_new_id tasks) ∧
    (add_task v tasks).map Task.id = tasks.map Task.id ++ [get_new_id tasks] ∧
    ((add_task v tasks).map Task.id).Nodup := by
  refine ⟨fun t ht => id_lt_get_new_id tasks t ht, add_task_map_id v tasks, ?_⟩
  rw [add_task_map_id, List.nodup_append]
  refine ⟨h, List.nodup_singleton _, ?_⟩
  intro x hx hx1
  rcases List.mem_map.mp hx with ⟨t, ht, rfl⟩
  rcases List.mem_singleton.mp hx1 with h'
  exact absurd (h' ▸ id_lt_get_new_id tasks t ht) (Nat.lt_irrefl _)

/-- C1 witness: the amended theorem applied to the one-task collection. -/
theorem C1_ids_fresh_witness :
    (add_task "c" [⟨1, "a", "pending", "medium", none⟩]).map Task.id = [1, 2] :=
  (C1_ids_fresh [⟨1, "a", "pending", "medium", none⟩] "c" (by decide)).2.1

/-- C3 counterexample: a slot holding `5` — well-formed JSON that is not
an array — survives the startup repair untouched, and `load` then
returns the non-sequence value `5`, not an ordered sequence of records. -/
theorem C3_counterexample :
    (load_json (ensure_file (FileState.valid (JsonVal.num 5)))).isArr = false := by
  rfl

/-- C3 amended: `load` never fails; a slot that is absent, blank, or
unparseable both loads as the empty sequence and is repaired to `[]` at
startup; but a slot holding well-formed JSON of any non-array shape is
left as is by the repair and `load` returns that value unchanged, so the
collection value is not guaranteed to be an ordered sequence. -/
theorem C3_load_repair (fs : FileState) :
    (fs = .absent ∨ fs = .blank ∨ fs = .malformed →
       load_json fs = .arr [] ∧ ensure_file fs = .valid (.arr []) ∧
       load_json (ensure_file fs) = .arr []) ∧
    (∀ v, fs = .valid v → ensure_file fs = fs ∧ load_json (ensure_file fs) = v) := by
  cases fs <;> simp [ensure_file, load_json]

/-- C3 witness: the amended theorem applied to a malformed slot. -/
theorem C3_load_repair_witness :
    load_json FileState.malformed = JsonVal.arr [] ∧
    ensure_file FileState.malformed = FileState.valid (JsonVal.arr []) ∧
    load_json (ensure_file FileState.malformed) = JsonVal.arr [] :=
  (C3_load_repair FileState.malformed).1 (Or.inr (Or.inr rfl))

/-- C6 counterexample: the payload `"a;;urgent"` persists a task whose
priority field is `"urgent"`, which is none of low / medium / high —
`add_task` never validates the third sub-field against the enum. -/
theorem C6_counterexample :
    (add_task "a;;urgent" []).map Task.priority = ["urgent"] ∧
    ¬ ("urgent" = "low" ∨ "urgent" = "medium" ∨ "urgent" = "high") := by
  refine ⟨by decide, by decide⟩

/-- C6 amended: the persisted priority defaults to `"medium"` whenever the
third `;`-sub-field of the payload is absent or blank after stripping;
when that sub-field is present and non-blank it is stored stripped and
lowercased exactly as given — any string, with no restriction to the
low/medium/high enumeration. -/
theorem C6_priority_field (value : String) (tasks : List Task) :
    (((splitSemi value.toList).length ≤ 2 ∨
        pyStripL ((splitSemi value.toList).getD 2 []) = []) →
       ((add_task value tasks).map Task.priority).getLast? = some "medium") ∧
    (2 < (splitSemi value.toList).length →
     pyStripL ((splitSemi value.toList).getD 2 []) ≠ [] →
       ((add_task value tasks).map Task.priority).getLast? =
         some (pyLowerL (pyStripL ((splitSemi value.toList).getD 2 []))).asString) := by
  constructor
  · intro h
    unfold add_task
    simp only [List.map_append, List.map_cons, List.map_nil]
    rw [List.getLast?_concat]
    rw [if_neg]
    intro hc
    rcases h with h | h
    · omega
    · exact hc.2 h
  · intro h1 h2
    unfold add_task
    simp only [List.map_append, List.map_cons, List.map_nil]
    rw [List.getLast?_concat]
    rw [if_pos ⟨h1, h2⟩]

/-- C6 witness: a payload with no priority field defaults to medium, and
the present non-blank field `"UrGent "` is persisted stripped and
lowercased as `"urgent"`, outside the enumeration. -/
theorem C6_priority_field_witness :
    ((add_task "buy milk" []).map Task.priority).getLast? = some "medium" ∧
    ((add_task "a;;UrGent " []).map Task.priority).getLast? = some "urgent" :=
  ⟨(C6_priority_field "buy milk" []).1 (by decide),
   (C6_priority_field "a;;UrGent " []).2 (by decide) (by decide)⟩

/-- C5: `complete_task` on an existing id rewrites exactly the status of
the first matching task (`setStatusDoneAt` at the first matching index)
and reports success; on a missing id it returns the collection unchanged
and reports an invalid id. -/
theorem C5_complete_first_match (tasks : List Task) (i : Nat) :
    ((∃ t ∈ tasks, t.id = i) →
       complete_task i tasks =
         (setStatusDoneAt (tasks.findIdx fun t => decide (t.id = i)) tasks, true)) ∧
    ((∀ t ∈ tasks, t.id ≠ i) → complete_task i tasks = (tasks, false)) := by
  induction tasks with
  | nil =>
    constructor
    · intro h
      simp at h
    · intro _
      rfl
  | cons t ts ih =>
    constructor
    · intro h
      by_cases hid : t.id = i
      · simp [complete_task, hid, List.findIdx_cons, setStatusDoneAt]
      · have h' : ∃ u ∈ ts, u.id = i := by
          rcases h with ⟨u, hu, hui⟩
          rcases List.mem_cons.mp hu with rfl | hmem
          · exact absurd hui hid
          · exact ⟨u, hmem, hui⟩
        have hrec := ih.1 h'
        simp [complete_task, hid, List.findIdx_cons, setStatusDoneAt, hrec]
    · intro h
      have hid : ¬ t.id = i := h t (List.mem_cons_self t ts)
      have hrec := ih.2 fun u hu => h u (List.mem_cons_of_mem t hu)
      simp [complete_task, hid, hrec]

/-- C5 witness: completing id 2 in a two-task collection marks exactly
the second task done and reports success. -/
theorem C5_complete_first_match_witness :
    complete_task 2 [⟨1, "a", "pending", "medium", none⟩, ⟨2, "b", "pending", "low", none⟩] =
      ([⟨1, "a", "pending", "medium", none⟩, ⟨2, "b", "done", "low", none⟩], true) :=
  (C5_complete_first_match
      [⟨1, "a", "pending", "medium", none⟩, ⟨2, "b", "pending", "low", none⟩] 2).1
    ⟨⟨2, "b", "pending", "low", none⟩, by simp, rfl⟩

/-- C10: completing an existing id succeeds, and completing it a second
time succeeds again and leaves the persisted collection exactly as after
the first call — `complete_task` is idempotent on existing ids. -/
theorem C10_complete_idempotent (tasks : List Task) (i : Nat)
    (h : ∃ t ∈ tasks, t.id = i) :
    (complete_task i tasks).2 = true ∧
    complete_task i (complete_task i tasks).1 = ((complete_task i tasks).1, true) := by
  induction tasks with
  | nil => simp at h
  | cons t ts ih =>
    by_cases hid : t.id = i
    · refine ⟨by simp [complete_task, hid], ?_⟩
      have hid' : ({ t with status := "done" } : Task).id = i := hid
      simp [complete_task, hid, hid']
    · have h' : ∃ u ∈ ts, u.id = i := by
        rcases h with ⟨u, hu, hui⟩
        rcases List.mem_cons.mp hu with rfl | hmem
        · exact absurd hui hid
        · exact ⟨u, hmem, hui⟩
      obtain ⟨ih1, ih2⟩ := ih h'
      refine ⟨by simp [complete_task, hid, ih1], ?_⟩
      simp [complete_task, hid, ih2, ih1]

/-- C10 witness: the theorem at a concrete one-task collection. -/
theorem C10_complete_idempotent_witness :
    complete_task 1 (complete_task 1 [(⟨1, "a", "pending", "medium", none⟩ : Task)]).1 =
      ((complete_task 1 [(⟨1, "a", "pending", "medium", none⟩ : Task)]).1, true) :=
  (C10_complete_idempotent [⟨1, "a", "pending", "medium", none⟩] 1
    ⟨⟨1, "a", "pending", "medium", none⟩, by simp, rfl⟩).2

/-- C8: the only branch before the greeting branch is the exit branch, so
any line the exit branch does not match that contains the substring
`"hi"` routes to the greeting handler; in particular the documented
history phrase `"show history"` (whose `"history"` contains `"hi"`)
triggers the greeting, and the vocabulary-history handler is unreachable
through that phrasing. -/
theorem C8_hi_shadows_history (u : String) :
    (byeCond u = false → containsSub u "hi" = true → route u = Action.greet) ∧
    route "show history" = Action.greet ∧
    route "show history" ≠ Action.vocabHistory := by
  refine ⟨?_, by decide, by decide⟩
  intro h0 hhi
  have hg : greetCond u = true := by
    simp [greetCond, hhi]
  simp [route, h0, hg]

/-- C8 witness: the general part of the theorem at the line
`"this history"`, which contains `"hi"` and no exit keyword. -/
theorem C8_hi_shadows_history_witness :
    route "this history" = Action.greet :=
  (C8_hi_shadows_history "this history").1 (by decide) (by decide)

/-- C2 counterexample: `main` is the program's only entry point; it reads
console lines in a loop and dispatches them through the if/elif chain
embedded as `route`, and no code inspects the process arguments
(`argparse` is imported but never used).  The positional command token
`showtasks` that the claim says is supported is not recognized by that
sole dispatcher: it falls through every branch to the unknown-command
notice instead of reaching the task-listing operation. -/
theorem C2_counterexample :
    route "showtasks" = Action.unknown ∧ route "showtasks" ≠ Action.showTasks := by
  refine ⟨by decide, by decide⟩

/-- C2 amended: the program has only the free-text interactive front end;
its dispatcher does not recognize the positional one-command-per-invocation
tokens (`showtasks`, `checkreminders`, `addnote …`, `remove <id>` all fall
through to the unknown-command notice), while the free-text phrasings of
the same operations do reach the core record operations — so no second,
positional front end over the core exists. -/
theorem C2_free_text_only :
    route "showtasks" = Action.unknown ∧
    route "checkreminders" = Action.unknown ∧
    route "addnote milk" = Action.unknown ∧
    route "remove 2" = Action.unknown ∧
    route "show tasks" = Action.showTasks ∧
    route "check reminders" = Action.checkReminders ∧
    route "add note milk" = Action.addNote "milk" ∧
    route "remove task 2" = Action.removeTask 2 ∧
    route "vocab" = Action.vocabHistory := by
  refine ⟨by decide, by decide, by decide, by decide, by decide,
    by decide, by decide, by decide, by decide⟩

/-- C9: once an input line reaches the complete (resp. remove) branch —
every earlier branch guard false, its own guard true — the target id is
`int` of the concatenation, in order, of every digit character of the
entire line; a line with no digit characters produces the usage message
and leaves the store unchanged. -/
theorem C9_digit_concat_id (u : String) (s : Store) :
    (byeCond u = false → greetCond u = false → addTaskCond u = false →
     showTasksCond u = false → completeCond u = true →
       (u.toList.filter isAsciiDigit = [] →
          route u = Action.completeUsage ∧ exec (route u) s = s) ∧
       (u.toList.filter isAsciiDigit ≠ [] →
          route u = Action.completeTask (natOfDigits (u.toList.filter isAsciiDigit)))) ∧
    (byeCond u = false → greetCond u = false → addTaskCond u = false →
     showTasksCond u = false → completeCond u = false → removeCond u = true →
       (u.toList.filter isAsciiDigit = [] →
          route u = Action.removeUsage ∧ exec (route u) s = s) ∧
       (u.toList.filter isAsciiDigit ≠ [] →
          route u = Action.removeTask (natOfDigits (u.toList.filter isAsciiDigit)))) := by
  have hnone : u.toList.filter isAsciiDigit = [] →
      ∀ x ∈ u.toList, isAsciiDigit x = false := by
    intro hds x hx
    cases hb : isAsciiDigit x with
    | false => rfl
    | true => exact absurd (hds ▸ List.mem_filter.mpr ⟨hx, hb⟩) (List.not_mem_nil x)
  have hsome : u.toList.filter isAsciiDigit ≠ [] →
      ∃ x ∈ u.toList, isAsciiDigit x = true := by
    intro hds
    obtain ⟨x, hx⟩ := List.exists_mem_of_ne_nil _ hds
    have hm := List.mem_filter.mp hx
    exact ⟨x, hm.1, hm.2⟩
  constructor
  · intro h0 h1 h2 h3 h4
    constructor
    · intro hds
      have hr : route u = Action.completeUsage := by
        simp [route, h0, h1, h2, h3, h4, hds]
        exact hnone hds
      exact ⟨hr, by simp [hr, exec]⟩
    · intro hds
      simp [route, h0, h1, h2, h3, h4, hds]
      exact hsome hds
  · intro h0 h1 h2 h3 h4 h5
    constructor
    · intro hds
      have hr : route u = Action.removeUsage := by
        simp [route, h0, h1, h2, h3, h4, h5, hds]
        exact hnone hds
      exact ⟨hr, by simp [hr, exec]⟩
    · intro hds
      simp [route, h0, h1, h2, h3, h4, h5, hds]
      exact hsome hds

/-- C9 witness: `"remove task 1 and 2"` targets id 12 (digits 1 and 2
concatenated), and the digit-free line `"done it"` yields the usage
outcome with an unchanged store. -/
theorem C9_digit_concat_id_witness :
    route "remove task 1 and 2" = Action.removeTask 12 ∧
    (route "done it" = Action.completeUsage ∧
      exec (route "done it") ⟨[], [], [], []⟩ = ⟨[], [], [], []⟩) :=
  ⟨((C9_digit_concat_id "remove task 1 and 2" ⟨[], [], [], []⟩).2
      (by decide) (by decide) (by decide) (by decide) (by decide) (by decide)).2 (by decide),
   ((C9_digit_concat_id "done it" ⟨[], [], [], []⟩).1
      (by decide) (by decide) (by decide) (by decide) (by decide)).1 (by decide)⟩

/-- C4: when `date + " " + time` does not parse under `%Y-%m-%d %H:%M`
(which rejects impossible calendar dates such as 2025-02-30),
`add_reminder` signals the invalid-format error and leaves the persisted
reminders unchanged; when it parses, exactly one reminder is appended
whose `time` field is the parsed timestamp re-rendered canonically — a
true normal form, since re-parsing it yields the same timestamp. -/
theorem C4_reminder_validation (text ds ts : String) (rs : List Reminder) :
    (strptimeMinute (ds ++ " " ++ ts) = none →
       add_reminder text ds ts rs = (rs, false)) ∧
    (∀ dt, strptimeMinute (ds ++ " " ++ ts) = some dt →
       add_reminder text ds ts rs = (rs ++ [⟨text, strftimeMinute dt⟩], true) ∧
       strptimeMinute (strftimeMinute dt) = some dt) := by
  constructor
  · intro h
    simp [add_reminder, h]
  · intro dt h
    exact ⟨by simp [add_reminder, h], strptime_strftime dt (strptimeMinute_valid h)⟩

/-- C4 witness: the impossible date 2025-02-30 is rejected with no
mutation, and the parseable non-canonical pair `2025-3-1`, `9:05` appends
one reminder stored under the canonical rendering `2025-03-01 09:05`. -/
theorem C4_reminder_validation_witness :
    add_reminder "pay rent" "2025-02-30" "10:00" [] = ([], false) ∧
    add_reminder "standup" "2025-3-1" "9:05" [] =
      ([⟨"standup", "2025-03-01 09:05"⟩], true) :=
  ⟨(C4_reminder_validation "pay rent" "2025-02-30" "10:00" []).1 (by decide),
   ((C4_reminder_validation "standup" "2025-3-1" "9:05" []).2
      ⟨2025, 3, 1, 9, 5⟩ (by decide)).1⟩

/-- C7: `check_reminders` keeps a reminder exactly when its stored `time`
string equals, by string equality, the rendering of the current minute;
consequently a reminder stamped with any other valid minute — in
particular one strictly before the current minute, i.e. already missed —
is never selected. -/
theorem C7_due_exact_match (now : DT) (rs : List Reminder) (r : Reminder) :
    (r ∈ check_reminders now rs ↔ r ∈ rs ∧ r.time = strftimeMinute now) ∧
    (∀ dt : DT, ValidDT now → ValidDT dt → dt ≠ now →
       r.time = strftimeMinute dt → r ∉ check_reminders now rs) := by
  have hmem : r ∈ check_reminders now rs ↔ r ∈ rs ∧ r.time = strftimeMinute now := by
    simp [check_reminders, List.mem_filter]
  refine ⟨hmem, ?_⟩
  intro dt hvn hvd hne hr hin
  have h2 : strftimeMinute dt = strftimeMinute now := by
    rw [← hr, (hmem.mp hin).2]
  exact hne (strftime_inj hvd hvn h2)

/-- C7 witness: with the clock at 2025-01-01 09:00, the reminder missed
at 08:59 is not selected. -/
theorem C7_due_exact_match_witness :
    (⟨"pay", "2025-01-01 08:59"⟩ : Reminder) ∉
      check_reminders ⟨2025, 1, 1, 9, 0⟩ [⟨"pay", "2025-01-01 08:59"⟩] :=
  (C7_due_exact_match ⟨2025, 1, 1, 9, 0⟩ [⟨"pay", "2025-01-01 08:59"⟩]
      ⟨"pay", "2025-01-01 08:59"⟩).2
    ⟨2025, 1, 1, 8, 59⟩ (by unfold ValidDT; decide) (by unfold ValidDT; decide)
    (by decide) (by decide)

end Assistant
